import Mathlib

/-!
Verification of the rengarde bonded UDP tunnel multiplexer (client and
server crates) against its natural-language specification.  The Rust
source is shallowly embedded: pure computations become Lean functions,
socket and clock effects become explicit oracle parameters, and the
concurrent path tables (DashMap) become association lists threaded
through the loop bodies.
-/

namespace Rengarde

/-- An IPv4 address, as four octets (each < 256 in any real address; the
octet bound is irrelevant to the classification predicates). -/
structure Ipv4Addr where
  a : Nat
  b : Nat
  c : Nat
  d : Nat
deriving DecidableEq, Repr

/-- Rust std Ipv4Addr::is_private: 10/8, 172.16/12, 192.168/16. -/
def Ipv4Addr.is_private (x : Ipv4Addr) : Bool :=
  x.a == 10 || (x.a == 172 && decide (16 ≤ x.b ∧ x.b ≤ 31)) || (x.a == 192 && x.b == 168)

/-- Rust std Ipv4Addr::is_loopback: 127/8. -/
def Ipv4Addr.is_loopback (x : Ipv4Addr) : Bool :=
  x.a == 127

/-- Rust std Ipv4Addr::is_link_local: 169.254/16. -/
def Ipv4Addr.is_link_local (x : Ipv4Addr) : Bool :=
  x.a == 169 && x.b == 254

/-- Rust std Ipv4Addr::is_multicast: 224/4. -/
def Ipv4Addr.is_multicast (x : Ipv4Addr) : Bool :=
  decide (224 ≤ x.a ∧ x.a ≤ 239)

/-- std::net::IpAddr.  The V6 payload is opaque: the client ignores every
IPv6 address, so only a tag distinguishing distinct V6 addresses is kept. -/
inductive IpAddr where
  | v4 (x : Ipv4Addr)
  | v6 (tag : Nat)
deriving DecidableEq, Repr

/-- std::net::SocketAddr: an IP address plus a port. -/
structure SocketAddr where
  ip : IpAddr
  port : Nat
deriving DecidableEq, Repr

/-- A network interface as reported by NetworkInterface::show(): a name and
its address list (field addr). -/
structure NetworkInterface where
  name : String
  addr : List IpAddr
deriving DecidableEq, Repr

namespace ClientService

/-- get_address_by_interface from crates/client/src/service.rs: find_map
over the interface's addresses; an IPv4 address is accepted when private,
loopback or link-local, rejected when multicast, and otherwise accepted;
IPv6 addresses are skipped. -/
def get_address_by_interface (iface : NetworkInterface) : Option IpAddr :=
  iface.addr.findSome? (fun ip =>
    match ip with
    | IpAddr.v4 x =>
      if x.is_private then some ip
      else if x.is_loopback then some ip
      else if x.is_link_local then some ip
      else if x.is_multicast then none
      else some ip
    | IpAddr.v6 _ => none)

end ClientService

namespace ClientMain

/-- get_address_by_interface from crates/client/src/main.rs (the copy used
by the list-interfaces CLI command); textually the same filter as the one
in service.rs. -/
def get_address_by_interface (iface : NetworkInterface) : Option IpAddr :=
  iface.addr.findSome? (fun ip =>
    match ip with
    | IpAddr.v4 x =>
      if x.is_private then some ip
      else if x.is_loopback then some ip
      else if x.is_link_local then some ip
      else if x.is_multicast then none
      else some ip
    | IpAddr.v6 _ => none)

end ClientMain

/-- Spec-side eligibility (section 4.2): an address qualifies when it is an
IPv4 address that is private, loopback, link-local, or any other
non-multicast IPv4 address; IPv6 never qualifies. -/
def spec_eligible (ip : IpAddr) : Bool :=
  match ip with
  | IpAddr.v4 x => x.is_private || x.is_loopback || x.is_link_local || !x.is_multicast
  | IpAddr.v6 _ => false

/-- SendingRoutine from crates/client/src/types.rs: one record per active
path.  Time is modelled as a Nat instant. -/
structure SendingRoutine where
  ifname : String
  src_addr : SocketAddr
  dst_addr : SocketAddr
  last_received_at : Nat
  total_received_bytes : Nat
  is_closing : Bool
deriving DecidableEq, Repr

/-- SendingRoutine::new: fresh record with zero byte counter, the closing
flag clear, and last_received_at set to the creation instant. -/
def SendingRoutine.new (ifname : String) (src_addr dst_addr : SocketAddr) (now : Nat) :
    SendingRoutine :=
  { ifname := ifname, src_addr := src_addr, dst_addr := dst_addr,
    last_received_at := now, total_received_bytes := 0, is_closing := false }

/-- SendingRoutine::send_to: issue the UDP send (its outcome is the oracle
argument sendOk); on success return none, on failure return the routine's
interface name for the drop list.  The closing flag is not consulted. -/
def SendingRoutine.send_to (r : SendingRoutine) (sendOk : Bool) : Option String :=
  if sendOk then none else some r.ifname

/-- DashMap::remove on the client path table keyed by interface name. -/
def removeKey (table : List SendingRoutine) (key : String) : List SendingRoutine :=
  table.filter (fun r => r.ifname ≠ key)

/-- One fan-out iteration of Service::receive_from_wireguard
(crates/client/src/service.rs): collect the drop list by attempting a send
on every routine, then remove every drop-listed identity. -/
structure ClientFanout where
  drop_list : List String
  table : List SendingRoutine

def client_fanout (routines : List SendingRoutine) (sendOk : String → Bool) : ClientFanout :=
  let drop_list := routines.filterMap (fun r => r.send_to (sendOk r.ifname))
  { drop_list := drop_list, table := drop_list.foldl removeKey routines }

/-- The identities on which the fan-out send succeeded (the routines whose
send_to returned none), the observable send set of the iteration. -/
def client_sent (routines : List SendingRoutine) (sendOk : String → Bool) : List String :=
  (routines.filter (fun r => (r.send_to (sendOk r.ifname)).isNone)).map SendingRoutine.ifname

/-- The loop of Service::receive_from_wireguard, one step per datagram:
each datagram carries its observed source address and the per-path send
outcomes; the source-address cell and the path table are threaded. -/
def receive_from_wireguard_loop :
    List (SocketAddr × (String → Bool)) → SocketAddr × List SendingRoutine →
      SocketAddr × List SendingRoutine
  | [], st => st
  | (src, sendOk) :: ds, (_, routines) =>
      receive_from_wireguard_loop ds (src, (client_fanout routines sendOk).table)

namespace Server

/-- Client from crates/server/src/client/types.rs: a path record. -/
structure Client where
  addr : SocketAddr
  last_received_at : Nat
  total_received_bytes : Nat
deriving DecidableEq, Repr

/-- Client::new: record created at the given instant with a zero counter. -/
def Client.new (addr : SocketAddr) (now : Nat) : Client :=
  { addr := addr, last_received_at := now, total_received_bytes := 0 }

/-- Client::update: refresh the timestamp and add the received bytes. -/
def Client.update (c : Client) (bytes_received : Nat) (now : Nat) : Client :=
  { c with last_received_at := now,
           total_received_bytes := c.total_received_bytes + bytes_received }

/-- DashMap::remove on the server path table keyed by source address. -/
def removeAddr (clients : List Client) (addr : SocketAddr) : List Client :=
  clients.filter (fun c => c.addr ≠ addr)

/-- One fan-out iteration of receive_from_wireguard
(crates/server/src/wireguard/connection.rs): a client older than the
timeout is drop-listed without a send; otherwise the send is attempted and
a failure drop-lists the client; the drop list is then removed. -/
structure Fanout where
  drop_list : List SocketAddr
  table : List Client

def server_fanout (clients : List Client) (received_at timeout : Nat)
    (sendOk : SocketAddr → Bool) : Fanout :=
  let drop_list := clients.filterMap (fun c =>
    if received_at - c.last_received_at > timeout then some c.addr
    else if sendOk c.addr then none
    else some c.addr)
  { drop_list := drop_list, table := drop_list.foldl removeAddr clients }

/-- The addresses to which the server fan-out actually sent the datagram
(not timed out and send succeeded). -/
def server_sent (clients : List Client) (received_at timeout : Nat)
    (sendOk : SocketAddr → Bool) : List SocketAddr :=
  (clients.filter (fun c =>
    !(received_at - c.last_received_at > timeout : Bool) && sendOk c.addr)).map Client.addr

/-- The loop of the server's receive_from_wireguard, one step per datagram
arriving on the upstream socket. -/
def receive_loop (timeout : Nat) :
    List (Nat × (SocketAddr → Bool)) → List Client → List Client
  | [], clients => clients
  | (t, sendOk) :: ds, clients =>
      receive_loop timeout ds (server_fanout clients t timeout sendOk).table

end Server

/-- Outcome of one iteration of a path-ingress reader's loop: halt means
the function returns (the task ends); cont means the loop repeats. -/
inductive ReaderOutcome where
  | halt
  | cont
deriving DecidableEq, Repr

/-- The environment of one reader iteration: the outcome and size of the
recv on the path's egress socket, the outcome of the forwarding send on
the tunnel socket, and the current instant. -/
structure ReaderEnv where
  recv_ok : Bool
  recv_bytes : Nat
  wg_send_ok : Bool
  now : Nat

/-- DashMap::get_mut followed by a field update: rewrite the entry with
the given key. -/
def updateRoutine (table : List SendingRoutine) (key : String)
    (f : SendingRoutine → SendingRoutine) : List SendingRoutine :=
  table.map (fun r => if r.ifname == key then f r else r)

/-- One iteration of Service::wireguard_write_back
(crates/client/src/service.rs): look up the own record (a failed lookup
propagates as an error, halting); halt when the closing flag is set; on a
successful recv update the stats and forward to the VPN peer, a failed
forward propagating as an error (halting); on a recv error set the
closing flag and continue. -/
def wireguard_write_back_step (table : List SendingRoutine) (ifname : String)
    (env : ReaderEnv) : ReaderOutcome × List SendingRoutine :=
  match table.find? (fun r => r.ifname == ifname) with
  | none => (ReaderOutcome.halt, table)
  | some routine =>
    if routine.is_closing then (ReaderOutcome.halt, table)
    else if env.recv_ok then
      let table := updateRoutine table ifname (fun r =>
        { r with last_received_at := env.now,
                 total_received_bytes := r.total_received_bytes + env.recv_bytes })
      if env.wg_send_ok then (ReaderOutcome.cont, table)
      else (ReaderOutcome.halt, table)
    else
      (ReaderOutcome.cont, updateRoutine table ifname (fun r => { r with is_closing := true }))

/-- The drop decision of Service::update_available_interfaces for one
existing routine: drop when the interface name is excluded, when no
current interface bears the name, when the interface has no eligible
address, or when the eligible address differs from the routine's recorded
source IP. -/
def routine_drop_decision (excluded : List String) (interfaces : List NetworkInterface)
    (r : SendingRoutine) : Bool :=
  if excluded.contains r.ifname then true
  else
    match interfaces.find? (fun i => i.name == r.ifname) with
    | some iface =>
      match ClientService.get_address_by_interface iface with
      | some a => decide (a ≠ r.src_addr.ip)
      | none => true
    | none => true

/-- Whether the path table holds a record for the key
(DashMap::contains_key). -/
def containsKey (table : List SendingRoutine) (key : String) : Bool :=
  table.any (fun r => r.ifname == key)

/-- The removal phase of one poll of Service::update_available_interfaces:
collect the drop list by the drop decision, then remove every listed
identity. -/
def poll_remove (excluded : List String) (interfaces : List NetworkInterface)
    (table : List SendingRoutine) : List SendingRoutine :=
  let drop_list := table.filterMap (fun r =>
    if routine_drop_decision excluded interfaces r then some r.ifname else none)
  drop_list.foldl removeKey table

/-- Effects performed by Service::create_send_thread, in program order. -/
inductive CreateEffect where
  | resolve_dns
  | bind_socket
  | bind_device
  | insert_record
  | spawn_reader
deriving DecidableEq, Repr

/-- Result of Service::create_send_thread: the routine inserted (none when
a step failed) and the effects that were attempted. -/
structure CreateOutcome where
  routine : Option SendingRoutine
  effects : List CreateEffect

/-- Service::create_send_thread: resolve the destination (the oracle dns
lists the resolver's answers; an empty list fails the creation before any
socket is bound), take the first address, bind the socket to the source
IP on port 0 (and to the device when the name is nonempty; a bind failure
is the bind_ok oracle), then insert the record and spawn the reader. -/
def create_send_thread (dns : List SocketAddr) (bind_ok : Bool) (ifname : String)
    (source_addr : IpAddr) (now : Nat) : CreateOutcome :=
  match dns with
  | [] => { routine := none, effects := [CreateEffect.resolve_dns] }
  | dst :: _ =>
    let binds := CreateEffect.bind_socket ::
      (if ifname ≠ "" then [CreateEffect.bind_device] else [])
    if bind_ok then
      { routine := some (SendingRoutine.new ifname { ip := source_addr, port := 0 } dst now),
        effects := CreateEffect.resolve_dns :: binds ++
          [CreateEffect.insert_record, CreateEffect.spawn_reader] }
    else
      { routine := none, effects := CreateEffect.resolve_dns :: binds }

/-- The body of the creation loop of the poll, for one interface: skip it
when excluded, already present, or without an eligible address; otherwise
attempt the creation, inserting the routine on success and leaving the
table unchanged on failure (the failure is logged and the loop
continues). -/
def poll_create_step (excluded : List String) (dns : String → List SocketAddr)
    (bind_ok : String → Bool) (now : Nat) (tbl : List SendingRoutine)
    (iface : NetworkInterface) : List SendingRoutine :=
  if excluded.contains iface.name then tbl
  else if containsKey tbl iface.name then tbl
  else
    match ClientService.get_address_by_interface iface with
    | some src =>
      match (create_send_thread (dns iface.name) (bind_ok iface.name)
          iface.name src now).routine with
      | some r => tbl ++ [r]
      | none => tbl
    | none => tbl

/-- The creation phase of one poll: the creation loop body folded over the
enumerated interfaces. -/
def poll_create (excluded : List String) (dns : String → List SocketAddr)
    (bind_ok : String → Bool) (now : Nat) (interfaces : List NetworkInterface)
    (table : List SendingRoutine) : List SendingRoutine :=
  interfaces.foldl (poll_create_step excluded dns bind_ok now) table

/-- One full poll of Service::update_available_interfaces: the removal
phase followed by the creation phase. -/
def update_available_interfaces_poll (excluded : List String)
    (interfaces : List NetworkInterface) (dns : String → List SocketAddr)
    (bind_ok : String → Bool) (now : Nat) (table : List SendingRoutine) :
    List SendingRoutine :=
  poll_create excluded dns bind_ok now interfaces (poll_remove excluded interfaces table)

namespace Server

/-- The upsert of receive_from_client (crates/server/src/client/
connection.rs): entry(src_addr).and_modify(update).or_insert_with(new) --
an existing record is refreshed, a new record is created with a zero byte
counter. -/
def upsert_client (clients : List Client) (addr : SocketAddr) (bytes : Nat)
    (now : Nat) : List Client :=
  if clients.any (fun c => c.addr == addr) then
    clients.map (fun c => if c.addr == addr then c.update bytes now else c)
  else clients ++ [Client.new addr now]

/-- The loop of receive_from_client, one step per datagram
(source address, size, arrival instant). -/
def receive_from_client_loop : List (SocketAddr × Nat × Nat) → List Client → List Client
  | [], clients => clients
  | (a, n, t) :: ds, clients => receive_from_client_loop ds (upsert_client clients a n t)

/-- ClientManager::cleanup_timeout_clients (crates/server/src/client/
manager.rs): collect the addresses whose age exceeds the timeout, then
remove each. -/
def cleanup_timeout_clients (timeout now : Nat) (clients : List Client) : List Client :=
  let timeout_clients :=
    (clients.filter (fun c => now - c.last_received_at > timeout)).map Client.addr
  timeout_clients.foldl removeAddr clients

/-- An event acting on the server's path table: a datagram from a client
(client ingress upsert) or a datagram from the upstream socket (tunnel
ingress fan-out with its per-address send outcomes). -/
inductive ServerEvent where
  | recv (addr : SocketAddr) (bytes : Nat)
  | fanout (sendOk : SocketAddr → Bool)

/-- Apply one event at the given instant. -/
def apply_event (timeout now : Nat) (clients : List Client) : ServerEvent → List Client
  | ServerEvent.recv a n => upsert_client clients a n now
  | ServerEvent.fanout sendOk => (server_fanout clients now timeout sendOk).table

/-- The server's path table over time, starting empty: at each instant the
scheduled events are applied, and every five seconds (main.rs cleanup
task) the expiry sweeper runs. -/
def server_state (timeout : Nat) (schedule : Nat → List ServerEvent) : Nat → List Client
  | 0 => []
  | t + 1 =>
    let tbl := (schedule (t + 1)).foldl (apply_event timeout (t + 1))
      (server_state timeout schedule t)
    if (t + 1) % 5 == 0 then cleanup_timeout_clients timeout (t + 1) tbl else tbl

end Server

/-- The server settings fields validated by validate_settings
(crates/server/src/config.rs). -/
structure ServerSettings where
  client_timeout : Option Nat
  write_timeout : Option Nat
deriving DecidableEq, Repr

/-- validate_settings plus whether the write-timeout warning was logged. -/
structure ValidatedSettings where
  settings : ServerSettings
  warned : Bool

/-- validate_settings: an absent or zero client timeout becomes 30; an
absent write timeout becomes 10; then any write timeout other than zero
logs a warning and is forced to 0. -/
def validate_settings (s : ServerSettings) : ValidatedSettings :=
  let s1 := match s.client_timeout with
    | none => { s with client_timeout := some 30 }
    | some 0 => { s with client_timeout := some 30 }
    | some _ => s
  let s2 := match s1.write_timeout with
    | none => { s1 with write_timeout := some 10 }
    | some _ => s1
  if s2.write_timeout ≠ some 0 then
    { settings := { s2 with write_timeout := some 0 }, warned := true }
  else
    { settings := s2, warned := false }

/-- The client main.rs write-timeout coercion: an absent value becomes 10;
then any value other than zero logs a warning and is forced to 0. -/
def client_write_timeout_coerce (wt : Option Nat) : Option Nat × Bool :=
  let wt1 := match wt with
    | none => some 10
    | some v => some v
  if wt1 ≠ some 0 then (some 0, true) else (wt1, false)

/-- Fixture: a private source address. -/
def addrA : SocketAddr := { ip := IpAddr.v4 { a := 10, b := 0, c := 0, d := 5 }, port := 1000 }

/-- Fixture: the resolved server destination address. -/
def dstAddr0 : SocketAddr :=
  { ip := IpAddr.v4 { a := 198, b := 51, c := 100, d := 1 }, port := 9000 }

/-- Fixture: an interface named eth0 carrying the private address of
addrA. -/
def eth0 : NetworkInterface :=
  { name := "eth0", addr := [IpAddr.v4 { a := 10, b := 0, c := 0, d := 5 }] }

/-- Fixture: a live routine for eth0 bound to addrA. -/
def routineA : SendingRoutine := SendingRoutine.new "eth0" addrA dstAddr0 0

/-- Fixture: the same routine with the closing flag set. -/
def routineClosing : SendingRoutine := { routineA with is_closing := true }

/-- Fixture: a reader environment where the recv succeeded and the forward
to the VPN peer failed. -/
def envSendFail : ReaderEnv := { recv_ok := true, recv_bytes := 100, wg_send_ok := false, now := 7 }

/-- Fixture: a reader environment where the recv on the path failed. -/
def envRecvFail : ReaderEnv := { recv_ok := false, recv_bytes := 0, wg_send_ok := true, now := 7 }

/-- Fixture: a schedule with a single client datagram at instant 1. -/
def schedW : Nat → List Server.ServerEvent :=
  fun t => if t = 1 then [Server.ServerEvent.recv addrA 100] else []

/-- Fixture: a server path record last heard from at instant 0. -/
def clientStale : Server.Client :=
  { addr := addrA, last_received_at := 0, total_received_bytes := 0 }

/-- Fixture: the server path record produced by the schedW datagram (the
creation datagram's bytes are not counted). -/
def clientFresh : Server.Client :=
  { addr := addrA, last_received_at := 1, total_received_bytes := 0 }

/-- The per-address body of the selector agrees pointwise with the
spec-side eligibility guard. -/
lemma select_step (ip : IpAddr) :
    (match ip with
      | IpAddr.v4 x =>
        if x.is_private then some ip
        else if x.is_loopback then some ip
        else if x.is_link_local then some ip
        else if x.is_multicast then none
        else some ip
      | IpAddr.v6 _ => none) = if spec_eligible ip then some ip else none := by
  cases ip with
  | v6 n => rfl
  | v4 x =>
    simp only [spec_eligible]
    rcases Bool.eq_false_or_eq_true x.is_private with h1 | h1 <;>
      rcases Bool.eq_false_or_eq_true x.is_loopback with h2 | h2 <;>
      rcases Bool.eq_false_or_eq_true x.is_link_local with h3 | h3 <;>
      rcases Bool.eq_false_or_eq_true x.is_multicast with h4 | h4 <;>
      simp [h1, h2, h3, h4]

/-- findSome? of a guard that returns its input is find?. -/
lemma findSome?_guard (p : α → Bool) (l : List α) :
    l.findSome? (fun x => if p x then some x else none) = l.find? p := by
  induction l with
  | nil => rfl
  | cons a l ih =>
    rw [List.findSome?_cons, List.find?_cons]
    by_cases h : p a <;> simp [h, ih]


/-- C4: for every network interface, the eligible-address selector returns
the first address in the interface's list that is a non-multicast IPv4
address (equivalently: private, loopback, link-local, or any other
non-multicast IPv4); multicast IPv4 and IPv6 addresses are never selected,
and when no address qualifies the result is none. -/
theorem eligible_address_spec (iface : NetworkInterface) :
    ClientService.get_address_by_interface iface = iface.addr.find? spec_eligible := by
  unfold ClientService.get_address_by_interface
  have h : (fun ip =>
      (match ip with
        | IpAddr.v4 x =>
          if x.is_private then some ip
          else if x.is_loopback then some ip
          else if x.is_link_local then some ip
          else if x.is_multicast then none
          else some ip
        | IpAddr.v6 _ => none)) =
      (fun ip => if spec_eligible ip then some ip else none) := by
    funext ip; exact select_step ip
  rw [h, findSome?_guard]

/-- C10: the copy of get_address_by_interface used by the list-interfaces
CLI command (main.rs) and the copy used by the interface poller
(service.rs) compute the same function. -/
theorem address_copies_agree (iface : NetworkInterface) :
    ClientMain.get_address_by_interface iface = ClientService.get_address_by_interface iface :=
  rfl

/-- Iterated keyed removal is a filter on the key not being drop-listed. -/
lemma foldl_removeKey_eq_filter (keys : List String) (l : List SendingRoutine) :
    keys.foldl removeKey l = l.filter (fun r => r.ifname ∉ keys) := by
  induction keys generalizing l with
  | nil => simp
  | cons k ks ih =>
    rw [List.foldl_cons, ih]
    unfold removeKey
    rw [List.filter_filter]
    apply List.filter_congr
    intro x _
    simp [List.mem_cons, not_or, Bool.and_comm]

/-- Iterated address removal is a filter on the address not being
drop-listed. -/
lemma foldl_removeAddr_eq_filter (keys : List SocketAddr) (l : List Server.Client) :
    keys.foldl Server.removeAddr l = l.filter (fun c => c.addr ∉ keys) := by
  induction keys generalizing l with
  | nil => simp
  | cons k ks ih =>
    rw [List.foldl_cons, ih]
    unfold Server.removeAddr
    rw [List.filter_filter]
    apply List.filter_congr
    intro x _
    simp [List.mem_cons, not_or, Bool.and_comm]

/-- filterMap of a some-guard is a filter followed by a map. -/
lemma filterMap_guard (p : α → Bool) (f : α → β) (l : List α) :
    l.filterMap (fun a => if p a then some (f a) else none) = (l.filter p).map f := by
  induction l with
  | nil => rfl
  | cons a l ih =>
    by_cases h : p a <;> simp [List.filterMap_cons, List.filter_cons, h, ih]

/-- filterMap of a none-guard is a filter on the negation followed by a
map. -/
lemma filterMap_guard_neg (p : α → Bool) (f : α → β) (l : List α) :
    l.filterMap (fun a => if p a then none else some (f a)) =
      (l.filter (fun a => !(p a))).map f := by
  induction l with
  | nil => rfl
  | cons a l ih =>
    by_cases h : p a <;> simp [List.filterMap_cons, List.filter_cons, h, ih]

/-- The client drop list collects exactly the identities whose send
failed. -/
lemma client_fanout_drop_char (routines : List SendingRoutine) (sendOk : String → Bool) :
    (client_fanout routines sendOk).drop_list =
      (routines.filter (fun r => !(sendOk r.ifname))).map SendingRoutine.ifname := by
  show routines.filterMap _ = _
  have h : (fun r : SendingRoutine => r.send_to (sendOk r.ifname)) =
      (fun r : SendingRoutine => if sendOk r.ifname then none else some r.ifname) := rfl
  rw [h]
  exact filterMap_guard_neg _ _ _

/-- After the client fan-out iteration the table is the old table with the
drop-listed identities removed. -/
lemma client_fanout_table_char (routines : List SendingRoutine) (sendOk : String → Bool) :
    (client_fanout routines sendOk).table =
      routines.filter (fun r => r.ifname ∉ (client_fanout routines sendOk).drop_list) :=
  foldl_removeKey_eq_filter _ _

/-- The client identities sent on are exactly those whose send
succeeded. -/
lemma client_sent_char (routines : List SendingRoutine) (sendOk : String → Bool) :
    client_sent routines sendOk =
      (routines.filter (fun r => sendOk r.ifname)).map SendingRoutine.ifname := by
  unfold client_sent
  congr 1
  apply List.filter_congr
  intro r _
  by_cases h : sendOk r.ifname = true <;> simp [SendingRoutine.send_to, h]

/-- The server drop list collects exactly the timed-out clients and those
whose send failed. -/
lemma server_fanout_drop_char (clients : List Server.Client) (received_at timeout : Nat)
    (sendOk : SocketAddr → Bool) :
    (Server.server_fanout clients received_at timeout sendOk).drop_list =
      (clients.filter (fun c =>
        decide (received_at - c.last_received_at > timeout) || !(sendOk c.addr))).map
        Server.Client.addr := by
  show clients.filterMap _ = _
  induction clients with
  | nil => rfl
  | cons c l ih =>
    rw [List.filterMap_cons]
    by_cases ht : received_at - c.last_received_at > timeout
    · simp [List.filter_cons, ht, ih]
    · by_cases hs : sendOk c.addr = true <;> simp [List.filter_cons, ht, hs, ih]

/-- After the server fan-out iteration the table is the old table with the
drop-listed addresses removed. -/
lemma server_fanout_table_char (clients : List Server.Client) (received_at timeout : Nat)
    (sendOk : SocketAddr → Bool) :
    (Server.server_fanout clients received_at timeout sendOk).table =
      clients.filter (fun c =>
        c.addr ∉ (Server.server_fanout clients received_at timeout sendOk).drop_list) :=
  foldl_removeAddr_eq_filter _ _

/-- C1: on both sides, one fan-out iteration per received datagram either
sends on every path in the table (the drop list is empty and the table is
unchanged), or sends on a strict subset of the identities while the drop
list collects exactly the paths whose send failed (plus, on the server,
those whose timeout was exceeded); every drop-listed identity is removed
from the table, and each loop installs the pruned table before the next
datagram is processed. -/
theorem fanout_drop_spec :
    (∀ (routines : List SendingRoutine) (sendOk : String → Bool),
      (client_fanout routines sendOk).drop_list =
        (routines.filter (fun r => !(sendOk r.ifname))).map SendingRoutine.ifname ∧
      (client_fanout routines sendOk).table =
        routines.filter (fun r => r.ifname ∉ (client_fanout routines sendOk).drop_list) ∧
      ((client_fanout routines sendOk).drop_list = [] →
        client_sent routines sendOk = routines.map SendingRoutine.ifname ∧
        (client_fanout routines sendOk).table = routines) ∧
      ((client_fanout routines sendOk).drop_list ≠ [] →
        client_sent routines sendOk ≠ routines.map SendingRoutine.ifname ∧
        ∀ n ∈ client_sent routines sendOk, n ∈ routines.map SendingRoutine.ifname)) ∧
    (∀ (clients : List Server.Client) (received_at timeout : Nat)
        (sendOk : SocketAddr → Bool),
      (Server.server_fanout clients received_at timeout sendOk).drop_list =
        (clients.filter (fun c =>
          decide (received_at - c.last_received_at > timeout) || !(sendOk c.addr))).map
          Server.Client.addr ∧
      (Server.server_fanout clients received_at timeout sendOk).table =
        clients.filter (fun c =>
          c.addr ∉ (Server.server_fanout clients received_at timeout sendOk).drop_list) ∧
      ((Server.server_fanout clients received_at timeout sendOk).drop_list = [] →
        Server.server_sent clients received_at timeout sendOk =
          clients.map Server.Client.addr ∧
        (Server.server_fanout clients received_at timeout sendOk).table = clients) ∧
      ((Server.server_fanout clients received_at timeout sendOk).drop_list ≠ [] →
        Server.server_sent clients received_at timeout sendOk ≠
          clients.map Server.Client.addr ∧
        ∀ a ∈ Server.server_sent clients received_at timeout sendOk,
          a ∈ clients.map Server.Client.addr)) ∧
    (∀ (ds : List (SocketAddr × (String → Bool))) (d : SocketAddr × (String → Bool))
        (st : SocketAddr × List SendingRoutine),
      receive_from_wireguard_loop (d :: ds) st =
        receive_from_wireguard_loop ds (d.1, (client_fanout st.2 d.2).table)) ∧
    (∀ (es : List (Nat × (SocketAddr → Bool))) (e : Nat × (SocketAddr → Bool))
        (timeout : Nat) (clients : List Server.Client),
      Server.receive_loop timeout (e :: es) clients =
        Server.receive_loop timeout es (Server.server_fanout clients e.1 timeout e.2).table) := by
  refine ⟨fun routines sendOk => ⟨client_fanout_drop_char _ _,
      client_fanout_table_char _ _, ?_, ?_⟩,
    fun clients received_at timeout sendOk => ⟨server_fanout_drop_char _ _ _ _,
      server_fanout_table_char _ _ _ _, ?_, ?_⟩,
    fun ds d st => by obtain ⟨src, sendOk⟩ := d; obtain ⟨s, routines⟩ := st; rfl,
    fun es e timeout clients => by obtain ⟨t, sendOk⟩ := e; rfl⟩
  · intro h
    rw [client_fanout_drop_char] at h
    have hf : routines.filter (fun r => !(sendOk r.ifname)) = [] := List.map_eq_nil_iff.mp h
    have hall : ∀ r ∈ routines, sendOk r.ifname = true := by
      intro r hr
      by_contra hc
      have : r ∈ routines.filter (fun r => !(sendOk r.ifname)) :=
        List.mem_filter.mpr ⟨hr, by simp [hc]⟩
      simp [hf] at this
    constructor
    · rw [client_sent_char, List.filter_eq_self.mpr (by intro r hr; simpa using hall r hr)]
    · rw [client_fanout_table_char, client_fanout_drop_char, hf]
      simp
  · intro h
    rw [client_fanout_drop_char] at h
    have hex : ∃ r ∈ routines, ¬(sendOk r.ifname = true) := by
      by_contra hc
      push_neg at hc
      exact h (by rw [List.filter_eq_nil_iff.mpr (by intro r hr; simpa using hc r hr)]; rfl)
    constructor
    · intro heq
      have hlen : (routines.filter (fun r => sendOk r.ifname)).length < routines.length :=
        List.length_filter_lt_length_iff_exists.mpr hex
      have := congrArg List.length heq
      rw [client_sent_char] at this
      simp only [List.length_map] at this
      omega
    · intro n hn
      rw [client_sent_char] at hn
      obtain ⟨r, hr, hrn⟩ := List.mem_map.mp hn
      exact List.mem_map.mpr ⟨r, List.mem_of_mem_filter hr, hrn⟩
  · intro h
    rw [server_fanout_drop_char] at h
    have hf : clients.filter (fun c =>
        decide (received_at - c.last_received_at > timeout) || !(sendOk c.addr)) = [] :=
      List.map_eq_nil_iff.mp h
    have hall : ∀ c ∈ clients,
        ¬(received_at - c.last_received_at > timeout) ∧ sendOk c.addr = true := by
      intro c hc
      by_contra hcon
      have : c ∈ clients.filter (fun c =>
          decide (received_at - c.last_received_at > timeout) || !(sendOk c.addr)) := by
        refine List.mem_filter.mpr ⟨hc, ?_⟩
        by_cases ht : received_at - c.last_received_at > timeout
        · simp [ht]
        · have hs : ¬(sendOk c.addr = true) := fun hs => hcon ⟨ht, hs⟩
          simp [ht, hs]
      simp [hf] at this
    constructor
    · unfold Server.server_sent
      rw [List.filter_eq_self.mpr (by
        intro c hc
        obtain ⟨ht, hs⟩ := hall c hc
        simp [ht, hs])]
    · rw [server_fanout_table_char, server_fanout_drop_char, hf]
      simp
  · intro h
    rw [server_fanout_drop_char] at h
    have hex : ∃ c ∈ clients, ¬((!(decide (received_at - c.last_received_at > timeout)) &&
        sendOk c.addr) = true) := by
      by_contra hc
      push_neg at hc
      refine h ?_
      rw [List.filter_eq_nil_iff.mpr ?_]
      · rfl
      · intro c hmem
        have := hc c hmem
        by_cases ht : received_at - c.last_received_at > timeout
        · simp [ht] at this
        · simp [ht] at this ⊢
          exact this
    constructor
    · intro heq
      have hlen : (clients.filter (fun c =>
          !(decide (received_at - c.last_received_at > timeout)) && sendOk c.addr)).length <
          clients.length :=
        List.length_filter_lt_length_iff_exists.mpr hex
      have := congrArg List.length heq
      unfold Server.server_sent at this
      simp only [List.length_map] at this
      omega
    · intro a ha
      unfold Server.server_sent at ha
      obtain ⟨c, hc, hca⟩ := List.mem_map.mp ha
      exact List.mem_map.mpr ⟨c, List.mem_of_mem_filter hc, hca⟩

/-- C1 witness: a concrete fan-out in which the single path's send fails:
the datagram reaches a strict subset of the identities and eth0 is
drop-listed. -/
theorem fanout_drop_spec_witness :
    client_sent [routineA] (fun _ => false) ≠ [routineA].map SendingRoutine.ifname ∧
    ∀ n ∈ client_sent [routineA] (fun _ => false),
      n ∈ [routineA].map SendingRoutine.ifname :=
  (fanout_drop_spec.1 [routineA] (fun _ => false)).2.2.2 (by decide)

/-- C2 counterexample: a routine whose closing flag is set, on an
interface that still exists with an unchanged eligible address, is not
marked for removal by the poll, and the fan-out still sends on it: the
claim that the next poll removes the record and that no fan-out send is
issued on a closing path is false on this input. -/
theorem closing_not_removed_cex :
    routine_drop_decision [] [eth0] routineClosing = false ∧
    client_sent [routineClosing] (fun _ => true) = ["eth0"] := by
  decide

/-- A field update that fixes the key leaves any field map of the table
unchanged when the update preserves that field. -/
lemma map_field_updateRoutine {β : Type} (g : SendingRoutine → β)
    (table : List SendingRoutine) (key : String) (f : SendingRoutine → SendingRoutine)
    (hf : ∀ r, g (f r) = g r) :
    (updateRoutine table key f).map g = table.map g := by
  unfold updateRoutine
  rw [List.map_map]
  apply List.map_congr_left
  intro a _
  by_cases h : a.ifname = key <;> simp [h, hf]

/-- C2 amended: when a reader's recv fails, the record's closing flag is
set and the iteration continues, the following iteration halting on the
flag; the poll's drop decision never consults the closing flag (a record
is removed only for exclusion, interface disappearance, a missing
eligible address, or an address change); and the fan-out send is issued
regardless of the closing flag, a path being drop-listed exactly on its
own send failure. -/
theorem closing_flag_behavior :
    (∀ (table : List SendingRoutine) (ifname : String) (env : ReaderEnv)
        (r : SendingRoutine),
      table.find? (fun r => r.ifname == ifname) = some r → r.is_closing = false →
      env.recv_ok = false →
      wireguard_write_back_step table ifname env =
        (ReaderOutcome.cont,
          updateRoutine table ifname (fun r => { r with is_closing := true }))) ∧
    (∀ (table : List SendingRoutine) (ifname : String) (env : ReaderEnv)
        (r : SendingRoutine),
      table.find? (fun r => r.ifname == ifname) = some r → r.is_closing = true →
      wireguard_write_back_step table ifname env = (ReaderOutcome.halt, table)) ∧
    (∀ (excluded : List String) (interfaces : List NetworkInterface)
        (r : SendingRoutine) (b : Bool),
      routine_drop_decision excluded interfaces { r with is_closing := b } =
        routine_drop_decision excluded interfaces r) ∧
    (∀ (r : SendingRoutine) (b ok : Bool),
      SendingRoutine.send_to { r with is_closing := b } ok = r.send_to ok) ∧
    (∀ (routines : List SendingRoutine) (sendOk : String → Bool) (r : SendingRoutine),
      r ∈ routines → sendOk r.ifname = false →
      r.ifname ∈ (client_fanout routines sendOk).drop_list) := by
  refine ⟨?_, ?_, ?_, ?_, ?_⟩
  · intro table ifname env r hfind hflag hrecv
    unfold wireguard_write_back_step
    rw [hfind]
    simp [hflag, hrecv]
  · intro table ifname env r hfind hflag
    unfold wireguard_write_back_step
    rw [hfind]
    simp [hflag]
  · intro excluded interfaces r b
    rfl
  · intro r b ok
    rfl
  · intro routines sendOk r hr hok
    rw [client_fanout_drop_char]
    exact List.mem_map.mpr ⟨r, List.mem_filter.mpr ⟨hr, by simp [hok]⟩, rfl⟩

/-- C2 amended witness: the concrete recv failure sets the flag and
continues, the next iteration halts, and a failing send on eth0 puts eth0
on the drop list. -/
theorem closing_flag_behavior_witness :
    wireguard_write_back_step [routineA] "eth0" envRecvFail =
      (ReaderOutcome.cont, [routineClosing]) ∧
    wireguard_write_back_step [routineClosing] "eth0" envRecvFail =
      (ReaderOutcome.halt, [routineClosing]) ∧
    "eth0" ∈ (client_fanout [routineA] (fun _ => false)).drop_list := by
  have h1 := closing_flag_behavior.1 [routineA] "eth0" envRecvFail routineA
    (by decide) (by decide) (by decide)
  have h2 := closing_flag_behavior.2.1 [routineClosing] "eth0" envRecvFail routineClosing
    (by decide) (by decide)
  have h5 := closing_flag_behavior.2.2.2.2 [routineA] (fun _ => false) routineA
    (by decide) (by decide)
  exact ⟨by rw [h1]; decide, h2, h5⟩

/-- C6 counterexample: when the forward of a received datagram to the
VPN-peer address fails, the reader does not continue its loop: the
iteration halts (the error propagates out of wireguard_write_back), so
the claim that the reader continues is false on this input. -/
theorem wg_send_failure_cex :
    (wireguard_write_back_step [routineA] "eth0" envSendFail).1 = ReaderOutcome.halt ∧
    ¬((wireguard_write_back_step [routineA] "eth0" envSendFail).1 = ReaderOutcome.cont) := by
  decide

/-- C6 amended: when the recv succeeded and the forward to the VPN peer
fails, the reader halts with the error; the path record is not removed
from the table (the key set is unchanged) and its closing flag is not set
(all closing flags are unchanged); only the receive statistics were
updated. -/
theorem wg_send_failure_halts :
    ∀ (table : List SendingRoutine) (ifname : String) (env : ReaderEnv)
      (r : SendingRoutine),
      table.find? (fun r => r.ifname == ifname) = some r → r.is_closing = false →
      env.recv_ok = true → env.wg_send_ok = false →
      (wireguard_write_back_step table ifname env).1 = ReaderOutcome.halt ∧
      (wireguard_write_back_step table ifname env).2 =
        updateRoutine table ifname (fun r =>
          { r with last_received_at := env.now,
                   total_received_bytes := r.total_received_bytes + env.recv_bytes }) ∧
      ((wireguard_write_back_step table ifname env).2).map SendingRoutine.ifname =
        table.map SendingRoutine.ifname ∧
      ((wireguard_write_back_step table ifname env).2).map SendingRoutine.is_closing =
        table.map SendingRoutine.is_closing := by
  intro table ifname env r hfind hflag hrecv hsend
  have hstep : wireguard_write_back_step table ifname env =
      (ReaderOutcome.halt, updateRoutine table ifname (fun r =>
        { r with last_received_at := env.now,
                 total_received_bytes := r.total_received_bytes + env.recv_bytes })) := by
    unfold wireguard_write_back_step
    rw [hfind]
    simp [hflag, hrecv, hsend]
  refine ⟨by rw [hstep], by rw [hstep], ?_, ?_⟩
  · rw [hstep]
    exact map_field_updateRoutine _ _ _ _ (fun r => rfl)
  · rw [hstep]
    exact map_field_updateRoutine _ _ _ _ (fun r => rfl)

/-- C6 amended witness: on the concrete failing forward, the key set and
the closing flags of the table are untouched. -/
theorem wg_send_failure_halts_witness :
    ((wireguard_write_back_step [routineA] "eth0" envSendFail).2).map
      SendingRoutine.is_closing = [false] := by
  have h := wg_send_failure_halts [routineA] "eth0" envSendFail routineA
    (by decide) (by decide) (by decide) (by decide)
  rw [h.2.2.2]
  decide

/-- containsKey holds exactly when some record bears the key. -/
lemma containsKey_iff (table : List SendingRoutine) (key : String) :
    containsKey table key = true ↔ ∃ r ∈ table, r.ifname = key := by
  simp [containsKey, List.any_eq_true]

/-- The poll's drop decision, characterized by the four spec conditions:
excluded name, vanished interface, no eligible address, or a changed
eligible address. -/
lemma drop_decision_char (excluded : List String) (interfaces : List NetworkInterface)
    (hnames : (interfaces.map NetworkInterface.name).Nodup) (r : SendingRoutine) :
    routine_drop_decision excluded interfaces r = true ↔
      (r.ifname ∈ excluded ∨
       (∀ i ∈ interfaces, i.name ≠ r.ifname) ∨
       (∃ i ∈ interfaces, i.name = r.ifname ∧
         ClientService.get_address_by_interface i = none) ∨
       (∃ i ∈ interfaces, i.name = r.ifname ∧
         ∃ a, ClientService.get_address_by_interface i = some a ∧ a ≠ r.src_addr.ip)) := by
  have hinj := List.inj_on_of_nodup_map hnames
  unfold routine_drop_decision
  by_cases hexcl : excluded.contains r.ifname = true
  · simp only [hexcl, if_true, true_iff]
    exact Or.inl (by simpa using hexcl)
  · have hexmem : r.ifname ∉ excluded := by simpa using hexcl
    simp only [hexcl, Bool.false_eq_true, if_false]
    split
    · rename_i i hfind
      have hi_mem : i ∈ interfaces := List.mem_of_find?_eq_some hfind
      have hi_name : i.name = r.ifname := by
        have := List.find?_some hfind
        simpa using this
      split
      · rename_i a haddr
        rw [decide_eq_true_eq]
        constructor
        · intro hne
          exact Or.inr (Or.inr (Or.inr ⟨i, hi_mem, hi_name, a, haddr, hne⟩))
        · rintro (h | h | h | h)
          · exact absurd h hexmem
          · exact absurd hi_name (h i hi_mem)
          · obtain ⟨j, hj, hjname, hjnone⟩ := h
            have : j = i := hinj hj hi_mem (hjname.trans hi_name.symm)
            subst this
            rw [haddr] at hjnone
            exact absurd hjnone (by simp)
          · obtain ⟨j, hj, hjname, b, hb, hbne⟩ := h
            have : j = i := hinj hj hi_mem (hjname.trans hi_name.symm)
            subst this
            rw [haddr] at hb
            injection hb with hba
            subst hba
            exact hbne
      · rename_i haddr
        simp only [true_iff]
        exact Or.inr (Or.inr (Or.inl ⟨i, hi_mem, hi_name, haddr⟩))
    · rename_i hfind
      have hall : ∀ i ∈ interfaces, i.name ≠ r.ifname := by
        intro i hi
        have := List.find?_eq_none.mp hfind i hi
        simpa using this
      simp only [true_iff]
      exact Or.inr (Or.inl hall)

/-- The removal phase keeps exactly the records the drop decision spares
(given unique keys). -/
lemma poll_remove_char (excluded : List String) (interfaces : List NetworkInterface)
    (table : List SendingRoutine)
    (hkeys : (table.map SendingRoutine.ifname).Nodup) :
    poll_remove excluded interfaces table =
      table.filter (fun r => !(routine_drop_decision excluded interfaces r)) := by
  have hinj := List.inj_on_of_nodup_map hkeys
  unfold poll_remove
  rw [filterMap_guard (routine_drop_decision excluded interfaces) SendingRoutine.ifname table,
    foldl_removeKey_eq_filter]
  apply List.filter_congr
  intro r hr
  by_cases hd : routine_drop_decision excluded interfaces r = true
  · simp only [hd, Bool.not_true, decide_eq_false_iff_not, not_not]
    exact List.mem_map.mpr ⟨r, List.mem_filter.mpr ⟨hr, hd⟩, rfl⟩
  · simp only [hd, Bool.not_false, decide_eq_true_eq]
    intro hmem
    obtain ⟨s, hs, hsname⟩ := List.mem_map.mp hmem
    have hs_tbl : s ∈ table := List.mem_of_mem_filter hs
    have : s = r := hinj hs_tbl hr hsname
    subst this
    exact hd (List.mem_filter.mp hs).2

/-- The creation-loop body never removes a record. -/
lemma poll_create_step_mem (excluded : List String) (dns : String → List SocketAddr)
    (bind_ok : String → Bool) (now : Nat) (tbl : List SendingRoutine)
    (iface : NetworkInterface) (r : SendingRoutine) (hr : r ∈ tbl) :
    r ∈ poll_create_step excluded dns bind_ok now tbl iface := by
  unfold poll_create_step
  split
  · exact hr
  · split
    · exact hr
    · split
      · split
        · exact List.mem_append.mpr (Or.inl hr)
        · exact hr
      · exact hr

/-- The creation phase never removes a record. -/
lemma poll_create_mem_mono (excluded : List String) (dns : String → List SocketAddr)
    (bind_ok : String → Bool) (now : Nat) :
    ∀ (interfaces : List NetworkInterface) (tbl : List SendingRoutine)
      (r : SendingRoutine), r ∈ tbl →
      r ∈ poll_create excluded dns bind_ok now interfaces tbl := by
  intro interfaces
  induction interfaces with
  | nil => intro tbl r hr; exact hr
  | cons i rest ih =>
    intro tbl r hr
    exact ih _ r (poll_create_step_mem excluded dns bind_ok now tbl i r hr)

/-- The creation phase preserves key presence. -/
lemma poll_create_key_mono (excluded : List String) (dns : String → List SocketAddr)
    (bind_ok : String → Bool) (now : Nat) (interfaces : List NetworkInterface)
    (tbl : List SendingRoutine) (key : String)
    (hk : containsKey tbl key = true) :
    containsKey (poll_create excluded dns bind_ok now interfaces tbl) key = true := by
  obtain ⟨r, hr, hrname⟩ := (containsKey_iff tbl key).mp hk
  exact (containsKey_iff _ key).mpr
    ⟨r, poll_create_mem_mono excluded dns bind_ok now interfaces tbl r hr, hrname⟩

/-- A creation with a nonempty resolver answer and a successful bind
yields a routine named after the interface. -/
lemma create_routine_name (dns : List SocketAddr) (bind_ok : Bool) (ifname : String)
    (src : IpAddr) (now : Nat) (hd : dns ≠ []) (hb : bind_ok = true) :
    ∃ r, (create_send_thread dns bind_ok ifname src now).routine = some r ∧
      r.ifname = ifname := by
  subst hb
  cases dns with
  | nil => exact absurd rfl hd
  | cons dst rest => exact ⟨_, rfl, rfl⟩

/-- After the creation phase, every interface of the enumeration that is
not excluded and has an eligible address is present (given the creation
oracles succeed for it). -/
lemma poll_create_adds (excluded : List String) (dns : String → List SocketAddr)
    (bind_ok : String → Bool) (now : Nat) :
    ∀ (interfaces : List NetworkInterface) (tbl : List SendingRoutine)
      (i : NetworkInterface), i ∈ interfaces →
      excluded.contains i.name = false →
      (ClientService.get_address_by_interface i).isSome →
      dns i.name ≠ [] → bind_ok i.name = true →
      containsKey (poll_create excluded dns bind_ok now interfaces tbl) i.name = true := by
  intro interfaces
  induction interfaces with
  | nil => intro tbl i hi; exact absurd hi (List.not_mem_nil i)
  | cons j rest ih =>
    intro tbl i hi hexcl haddr hdns hbind
    rcases List.mem_cons.mp hi with heq | hmem
    · subst heq
      have hkey : containsKey (poll_create_step excluded dns bind_ok now tbl i) i.name
          = true := by
        unfold poll_create_step
        rw [hexcl]
        simp only [Bool.false_eq_true, if_false]
        by_cases hck : containsKey tbl i.name = true
        · simp only [hck, if_true]
        · simp only [hck, Bool.false_eq_true, if_false]
          obtain ⟨a, ha⟩ := Option.isSome_iff_exists.mp haddr
          obtain ⟨r, hr, hrname⟩ := create_routine_name (dns i.name) (bind_ok i.name)
            i.name a now hdns hbind
          simp only [ha, hr]
          exact (containsKey_iff _ _).mpr ⟨r, by simp, hrname⟩
      exact poll_create_key_mono excluded dns bind_ok now rest _ _ hkey
    · exact ih (poll_create_step excluded dns bind_ok now tbl j) i hmem hexcl haddr hdns hbind

/-- C3: on every poll, the drop decision for an existing path holds
exactly when its interface name is excluded, its interface no longer
exists, its interface has no eligible address, or the current eligible
address differs from the recorded source IP; the removal phase keeps
exactly the spared records; and after the creation phase every interface
that is not excluded and has an eligible address (creation succeeding) is
present in the table, the surviving records being untouched. -/
theorem poll_reconciliation_spec (excluded : List String)
    (interfaces : List NetworkInterface) (dns : String → List SocketAddr)
    (bind_ok : String → Bool) (now : Nat) (table : List SendingRoutine)
    (hkeys : (table.map SendingRoutine.ifname).Nodup)
    (hnames : (interfaces.map NetworkInterface.name).Nodup)
    (hcreate : ∀ i ∈ interfaces, dns i.name ≠ [] ∧ bind_ok i.name = true) :
    (∀ r : SendingRoutine, routine_drop_decision excluded interfaces r = true ↔
      (r.ifname ∈ excluded ∨
       (∀ i ∈ interfaces, i.name ≠ r.ifname) ∨
       (∃ i ∈ interfaces, i.name = r.ifname ∧
         ClientService.get_address_by_interface i = none) ∨
       (∃ i ∈ interfaces, i.name = r.ifname ∧
         ∃ a, ClientService.get_address_by_interface i = some a ∧ a ≠ r.src_addr.ip))) ∧
    poll_remove excluded interfaces table =
      table.filter (fun r => !(routine_drop_decision excluded interfaces r)) ∧
    (∀ i ∈ interfaces, excluded.contains i.name = false →
      (ClientService.get_address_by_interface i).isSome →
      containsKey (update_available_interfaces_poll excluded interfaces dns bind_ok now table)
        i.name = true) ∧
    (∀ r ∈ poll_remove excluded interfaces table,
      r ∈ update_available_interfaces_poll excluded interfaces dns bind_ok now table) := by
  refine ⟨drop_decision_char excluded interfaces hnames,
    poll_remove_char excluded interfaces table hkeys, ?_, ?_⟩
  · intro i hi hexcl haddr
    exact poll_create_adds excluded dns bind_ok now interfaces _ i hi hexcl haddr
      (hcreate i hi).1 (hcreate i hi).2
  · intro r hr
    exact poll_create_mem_mono excluded dns bind_ok now interfaces _ r hr

/-- C3 witness: from an empty table, one poll with eth0 present and the
creation oracles succeeding leaves eth0 in the table. -/
theorem poll_reconciliation_spec_witness :
    containsKey (update_available_interfaces_poll [] [eth0] (fun _ => [dstAddr0])
      (fun _ => true) 5 []) "eth0" = true :=
  (poll_reconciliation_spec [] [eth0] (fun _ => [dstAddr0]) (fun _ => true) 5 []
    (by decide) (by decide) (by decide)).2.2.1 eth0 (by decide) (by decide) (by decide)

/-- A record surviving an upsert was either refreshed at that instant or
was already in the table. -/
lemma upsert_mem (clients : List Server.Client) (a : SocketAddr) (n now : Nat) :
    ∀ c ∈ Server.upsert_client clients a n now,
      c.last_received_at = now ∨ c ∈ clients := by
  intro c hc
  unfold Server.upsert_client at hc
  by_cases hmem : clients.any (fun c => c.addr == a) = true
  · rw [if_pos hmem] at hc
    obtain ⟨c0, hc0, heq⟩ := List.mem_map.mp hc
    by_cases he : c0.addr = a
    · left
      rw [← heq]
      simp [he, Server.Client.update]
    · right
      rw [← heq]
      simp [he]
      exact hc0
  · rw [if_neg hmem] at hc
    rcases List.mem_append.mp hc with h | h
    · exact Or.inr h
    · left
      have : c = Server.Client.new a now := List.mem_singleton.mp h
      rw [this]
      rfl

/-- The server fan-out never adds a record. -/
lemma fanout_table_sub (clients : List Server.Client) (received_at timeout : Nat)
    (sendOk : SocketAddr → Bool) :
    ∀ c ∈ (Server.server_fanout clients received_at timeout sendOk).table,
      c ∈ clients := by
  intro c hc
  rw [server_fanout_table_char] at hc
  exact List.mem_of_mem_filter hc

/-- One event either refreshes a record at the current instant or keeps an
existing record. -/
lemma apply_event_mem (timeout now : Nat) (clients : List Server.Client)
    (ev : Server.ServerEvent) :
    ∀ c ∈ Server.apply_event timeout now clients ev,
      c.last_received_at = now ∨ c ∈ clients := by
  intro c hc
  cases ev with
  | recv a n => exact upsert_mem clients a n now c hc
  | fanout sendOk => exact Or.inr (fanout_table_sub clients now timeout sendOk c hc)

/-- A tick's worth of events either refreshes a record at the current
instant or keeps an existing record. -/
lemma foldl_events_mem (timeout now : Nat) :
    ∀ (evs : List Server.ServerEvent) (clients : List Server.Client)
      (c : Server.Client),
      c ∈ evs.foldl (Server.apply_event timeout now) clients →
      c.last_received_at = now ∨ c ∈ clients := by
  intro evs
  induction evs with
  | nil => intro clients c hc; exact Or.inr hc
  | cons e es ih =>
    intro clients c hc
    rcases ih _ c hc with h | h
    · exact Or.inl h
    · exact apply_event_mem timeout now clients e c h

/-- A record surviving the sweeper was in the table and is no older than
the timeout. -/
lemma cleanup_mem (timeout now : Nat) (clients : List Server.Client) :
    ∀ c ∈ Server.cleanup_timeout_clients timeout now clients,
      c ∈ clients ∧ now - c.last_received_at ≤ timeout := by
  intro c hc
  unfold Server.cleanup_timeout_clients at hc
  rw [foldl_removeAddr_eq_filter] at hc
  have hmem := List.mem_of_mem_filter hc
  have hnot := (List.mem_filter.mp hc).2
  refine ⟨hmem, ?_⟩
  by_contra hgt
  push_neg at hgt
  have hin : c.addr ∈ (clients.filter
      (fun c => now - c.last_received_at > timeout)).map Server.Client.addr :=
    List.mem_map.mpr ⟨c, List.mem_filter.mpr ⟨hmem, by simpa using hgt⟩, rfl⟩
  simp only [decide_eq_true_eq] at hnot
  exact hnot hin

/-- The strengthened sweep invariant: a record's age never exceeds the
timeout plus the time since the last sweep. -/
lemma server_state_bound (timeout : Nat) (schedule : Nat → List Server.ServerEvent) :
    ∀ t, ∀ c ∈ Server.server_state timeout schedule t,
      c.last_received_at ≤ t ∧ t - c.last_received_at ≤ timeout + t % 5 := by
  intro t
  induction t with
  | zero =>
    intro c hc
    simp [Server.server_state] at hc
  | succ t ih =>
    intro c hc
    unfold Server.server_state at hc
    by_cases h5 : ((t + 1) % 5 == 0) = true
    · rw [if_pos h5] at hc
      obtain ⟨hmem, hle⟩ := cleanup_mem timeout (t + 1) _ c hc
      rcases foldl_events_mem timeout (t + 1) _ _ c hmem with hnow | hprev
      · omega
      · have := ih c hprev
        omega
    · rw [if_neg h5] at hc
      rcases foldl_events_mem timeout (t + 1) _ _ c hc with hnow | hprev
      · omega
      · have hih := ih c hprev
        have h5n : (t + 1) % 5 ≠ 0 := by simpa using h5
        omega

/-- C5: for every path record remaining in the server's table, the time
since its last receive never exceeds the client timeout plus the
five-second sweep period; and the tunnel-ingress fan-out drop-lists any
client whose age exceeds the client timeout when a datagram arrives. -/
theorem server_age_invariant (timeout : Nat) (schedule : Nat → List Server.ServerEvent)
    (t : Nat) :
    (∀ c ∈ Server.server_state timeout schedule t,
      t - c.last_received_at ≤ timeout + 5) ∧
    (∀ (clients : List Server.Client) (received_at : Nat) (sendOk : SocketAddr → Bool)
      (c : Server.Client), c ∈ clients →
      received_at - c.last_received_at > timeout →
      c.addr ∈ (Server.server_fanout clients received_at timeout sendOk).drop_list) := by
  constructor
  · intro c hc
    have hb := server_state_bound timeout schedule t c hc
    have hm : t % 5 < 5 := Nat.mod_lt _ (by omega)
    omega
  · intro clients received_at sendOk c hc hgt
    rw [server_fanout_drop_char]
    exact List.mem_map.mpr ⟨c, List.mem_filter.mpr ⟨hc, by simp [hgt]⟩, rfl⟩

/-- C5 witness: on a concrete run with one datagram at instant 1, the
surviving record at instant 3 satisfies the age bound; and a concrete
timed-out client is drop-listed by the fan-out. -/
theorem server_age_invariant_witness :
    (3 : Nat) - (1 : Nat) ≤ 30 + 5 ∧
    addrA ∈ (Server.server_fanout [clientStale] 100 30 (fun _ => true)).drop_list :=
  ⟨(server_age_invariant 30 schedW 3).1 clientFresh (by decide),
   (server_age_invariant 30 schedW 3).2 [clientStale] 100 (fun _ => true) clientStale
     (by decide) (by decide)⟩

/-- C7 counterexample: the datagram that causes the creation of a record
is not counted: after a single 100-byte datagram from a fresh source the
record's byte counter is 0, not 100. -/
theorem creation_bytes_cex :
    (Server.upsert_client [] addrA 100 0).map Server.Client.total_received_bytes = [0] ∧
    ¬((Server.upsert_client [] addrA 100 0).map Server.Client.total_received_bytes
      = [100]) := by
  decide

/-- Folding receives from one address over a table holding exactly that
record accumulates the bytes and tracks the last receive instant. -/
lemma receive_fold_single (a : SocketAddr) :
    ∀ (ds : List (Nat × Nat)) (c : Server.Client), c.addr = a →
      Server.receive_from_client_loop (ds.map (fun p => (a, p.1, p.2))) [c] =
        [{ addr := a,
           last_received_at := (ds.map Prod.snd).getLastD c.last_received_at,
           total_received_bytes := c.total_received_bytes + (ds.map Prod.fst).sum }] := by
  intro ds
  induction ds with
  | nil =>
    intro c hca
    obtain ⟨ca, cl, ct⟩ := c
    simp only at hca
    subst hca
    simp [Server.receive_from_client_loop]
  | cons d ds ih =>
    intro c hca
    obtain ⟨n, t⟩ := d
    have hup : Server.upsert_client [c] a n t = [Server.Client.update c n t] := by
      unfold Server.upsert_client
      rw [if_pos (by simp [hca])]
      simp [hca]
    rw [show Server.receive_from_client_loop
        (((n, t) :: ds).map (fun p => (a, p.1, p.2))) [c] =
        Server.receive_from_client_loop (ds.map (fun p => (a, p.1, p.2)))
          (Server.upsert_client [c] a n t) from rfl, hup,
      ih (Server.Client.update c n t) (by simp [Server.Client.update, hca])]
    simp only [Server.Client.update, List.map_cons, List.getLastD_cons, List.sum_cons,
      Nat.add_assoc]

/-- C7 amended: after datagrams of sizes n1, ..., nk from a fresh source
(the first causing the record's creation), the record's byte counter is
n2 + ... + nk -- the creation datagram is not counted -- and the
last-received instant is that of the final datagram. -/
theorem receive_byte_totals (a : SocketAddr) (d : Nat × Nat) (ds : List (Nat × Nat)) :
    Server.receive_from_client_loop ((d :: ds).map (fun p => (a, p.1, p.2))) [] =
      [{ addr := a,
         last_received_at := (ds.map Prod.snd).getLastD d.2,
         total_received_bytes := (ds.map Prod.fst).sum }] := by
  obtain ⟨n, t⟩ := d
  have h0 : Server.upsert_client [] a n t = [Server.Client.new a t] := by
    unfold Server.upsert_client
    simp
  rw [show Server.receive_from_client_loop
      (((n, t) :: ds).map (fun p => (a, p.1, p.2))) [] =
      Server.receive_from_client_loop (ds.map (fun p => (a, p.1, p.2)))
        (Server.upsert_client [] a n t) from rfl, h0,
    receive_fold_single a ds (Server.Client.new a t) rfl]
  simp [Server.Client.new]

/-- A failing resolution leaves the creation-loop body inert. -/
lemma poll_create_step_dns_noop (excluded : List String) (dns : String → List SocketAddr)
    (bind_ok : String → Bool) (now : Nat) (tbl : List SendingRoutine)
    (i : NetworkInterface) (hdns : dns i.name = []) :
    poll_create_step excluded dns bind_ok now tbl i = tbl := by
  unfold poll_create_step
  split
  · rfl
  · split
    · rfl
    · split
      · rw [hdns]
        rfl
      · rfl

/-- C8: a creation whose resolution yields no addresses fails before any
socket is bound and before any record is inserted; a successful
resolution uses the first returned address as the path's remote address;
and a failing creation leaves the poll's table unchanged while the loop
continues, every existing record being preserved. -/
theorem dns_failure_isolated :
    (∀ (bind_ok : Bool) (ifname : String) (src : IpAddr) (now : Nat),
      (create_send_thread [] bind_ok ifname src now).routine = none ∧
      (create_send_thread [] bind_ok ifname src now).effects = [CreateEffect.resolve_dns] ∧
      CreateEffect.bind_socket ∉ (create_send_thread [] bind_ok ifname src now).effects ∧
      CreateEffect.insert_record ∉ (create_send_thread [] bind_ok ifname src now).effects) ∧
    (∀ (dst : SocketAddr) (rest : List SocketAddr) (ifname : String) (src : IpAddr)
      (now : Nat),
      (create_send_thread (dst :: rest) true ifname src now).routine =
        some (SendingRoutine.new ifname { ip := src, port := 0 } dst now)) ∧
    (∀ (excluded : List String) (dns : String → List SocketAddr)
      (bind_ok : String → Bool) (now : Nat) (i : NetworkInterface)
      (rest : List NetworkInterface) (tbl : List SendingRoutine),
      dns i.name = [] →
      poll_create excluded dns bind_ok now (i :: rest) tbl =
        poll_create excluded dns bind_ok now rest tbl) ∧
    (∀ (excluded : List String) (dns : String → List SocketAddr)
      (bind_ok : String → Bool) (now : Nat) (interfaces : List NetworkInterface)
      (tbl : List SendingRoutine) (r : SendingRoutine), r ∈ tbl →
      r ∈ poll_create excluded dns bind_ok now interfaces tbl) := by
  refine ⟨fun bind_ok ifname src now => ⟨rfl, rfl, by simp [create_send_thread],
      by simp [create_send_thread]⟩,
    fun dst rest ifname src now => rfl, ?_, ?_⟩
  · intro excluded dns bind_ok now i rest tbl hdns
    show (i :: rest).foldl (poll_create_step excluded dns bind_ok now) tbl = _
    rw [List.foldl_cons, poll_create_step_dns_noop excluded dns bind_ok now tbl i hdns]
    rfl
  · intro excluded dns bind_ok now interfaces tbl r hr
    exact poll_create_mem_mono excluded dns bind_ok now interfaces tbl r hr

/-- C8 witness: a concrete failing resolution creates nothing and leaves
the concrete table's record in place. -/
theorem dns_failure_isolated_witness :
    (create_send_thread [] true "eth0" addrA.ip 0).routine = none ∧
    poll_create [] (fun _ => []) (fun _ => true) 0 [eth0] [] =
      poll_create [] (fun _ => []) (fun _ => true) 0 [] [] ∧
    routineA ∈ poll_create [] (fun _ => []) (fun _ => true) 0 [eth0] [routineA] :=
  ⟨(dns_failure_isolated.1 true "eth0" addrA.ip 0).1,
   dns_failure_isolated.2.2.1 [] (fun _ => []) (fun _ => true) 0 eth0 [] [] rfl,
   dns_failure_isolated.2.2.2 [] (fun _ => []) (fun _ => true) 0 [eth0] [routineA]
     routineA (by decide)⟩

/-- C9: after validation the server's client timeout equals the
configured value when positive and 30 when absent or zero; on both
sides the effective write timeout is always 0, and a warning is logged
whenever a nonzero write timeout was configured. -/
theorem timeout_validation_spec :
    (∀ s : ServerSettings, (validate_settings s).settings.client_timeout =
      some (match s.client_timeout with
        | none => 30
        | some 0 => 30
        | some (v + 1) => v + 1)) ∧
    (∀ (s : ServerSettings) (v : Nat), s.client_timeout = some v → 0 < v →
      (validate_settings s).settings.client_timeout = some v) ∧
    (∀ s : ServerSettings, (validate_settings s).settings.write_timeout = some 0) ∧
    (∀ (s : ServerSettings) (v : Nat), s.write_timeout = some v → 0 < v →
      (validate_settings s).warned = true) ∧
    (∀ wt : Option Nat, (client_write_timeout_coerce wt).1 = some 0) ∧
    (∀ v : Nat, 0 < v → (client_write_timeout_coerce (some v)).2 = true) := by
  have hct : ∀ s : ServerSettings, (validate_settings s).settings.client_timeout =
      some (match s.client_timeout with
        | none => 30
        | some 0 => 30
        | some (v + 1) => v + 1) := by
    intro s
    obtain ⟨ct, wt⟩ := s
    rcases ct with _ | v
    · rcases wt with _ | w
      · rfl
      · simp only [validate_settings]
        split <;> rfl
    · rcases v with _ | v
      · rcases wt with _ | w
        · rfl
        · simp only [validate_settings]
          split <;> rfl
      · rcases wt with _ | w
        · rfl
        · simp only [validate_settings]
          split <;> rfl
  refine ⟨hct, ?_, ?_, ?_, ?_, ?_⟩
  · intro s v hv hpos
    have h := hct s
    rw [hv] at h
    rcases v with _ | v
    · exact absurd hpos (by omega)
    · simpa using h
  · intro s
    obtain ⟨ct, wt⟩ := s
    rcases ct with _ | v
    · simp only [validate_settings]
      split
      · rfl
      · rename_i h
        exact not_ne_iff.mp h
    · rcases v with _ | v <;>
      · simp only [validate_settings]
        split
        · rfl
        · rename_i h
          exact not_ne_iff.mp h
  · intro s v hv hpos
    obtain ⟨ct, wt⟩ := s
    simp only at hv
    subst hv
    have hne : some v ≠ some 0 := by
      intro h
      injection h with h
      omega
    rcases ct with _ | u
    · simp only [validate_settings]
      rw [if_pos hne]
    · rcases u with _ | u <;>
      · simp only [validate_settings]
        rw [if_pos hne]
  · intro wt
    rcases wt with _ | w
    · rfl
    · simp only [client_write_timeout_coerce]
      split
      · rfl
      · rename_i h
        exact not_ne_iff.mp h
  · intro v hpos
    have hne : some v ≠ some 0 := by
      intro h
      injection h with h
      omega
    simp only [client_write_timeout_coerce]
    rw [if_pos hne]

/-- C9 witness: a configured client timeout of 7 survives validation, the
configured write timeout of 5 is coerced to 0 with the warning, on both
sides. -/
theorem timeout_validation_spec_witness :
    (validate_settings { client_timeout := some 7, write_timeout := some 5
      }).settings.client_timeout = some 7 ∧
    (validate_settings { client_timeout := some 7, write_timeout := some 5
      }).settings.write_timeout = some 0 ∧
    (validate_settings { client_timeout := some 7, write_timeout := some 5
      }).warned = true ∧
    (client_write_timeout_coerce (some 5)).1 = some 0 ∧
    (client_write_timeout_coerce (some 5)).2 = true :=
  ⟨timeout_validation_spec.2.1 _ 7 rfl (by omega),
   timeout_validation_spec.2.2.1 _,
   timeout_validation_spec.2.2.2.1 _ 5 rfl (by omega),
   timeout_validation_spec.2.2.2.2.1 _,
   timeout_validation_spec.2.2.2.2.2 5 (by omega)⟩

end Rengarde
